import Mathlib

/-!
# twESP32FloraCLI: the serial line reader and the provisioning dialog

A shallow embedding of `readLine` and `configESP32` from `twESP32FloraCLI/main.go`.

* A Go `string` is a sequence of bytes, modelled as `List Byte` with `Byte = Fin 256`.
  All string literals of the source are ASCII, so `str` maps each character to its code.
* The serial port is modelled by the outcomes of its successive `Read` calls
  (`World.reads`) and of its successive `Write` calls (`World.writeRes`).  A read from an
  exhausted stream reports end-of-stream (`io.EOF`); a write with no scripted outcome
  succeeds.
* Everything the program does to the outside is appended to `World.trace`.
* The two `for` loops of the source are structural recursions: `readLineLoop` on the
  stream of read outcomes, `dialogLoop` on a fuel counter which `configESP32` sets to one
  more than the number of pending read outcomes (shown to be always enough).
-/

namespace TwESP32Flora

/-- One byte of a Go string or of the serial stream. -/
abbrev Byte := Fin 256

/-- The bytes of an ASCII string literal of the source. -/
def str (s : String) : List Byte := s.toList.map (fun c => Fin.ofNat c.toNat)

/-- Go `strings.HasPrefix(s, pre)`. -/
def HasPrefix (s pre : List Byte) : Bool := pre.isPrefixOf s

/-- Go `fmt.Sprintf("%d", n)`: the decimal rendering of an integer. -/
def fmtD (n : Int) : List Byte := str (toString n)

/-- The errors a port operation can report: `io.EOF`, or any other error value. -/
inductive PortError where
  | eof
  | other (code : Nat)
  deriving DecidableEq, Repr

/-- The outcome of one `p.Read(buff)` with a one-byte buffer: `(1, nil)` with the byte
stored in `buff[0]`, `(0, nil)` (read timeout), or a non-nil error. -/
inductive ReadResult where
  | byte (b : Byte)
  | zero
  | fail (e : PortError)
  deriving DecidableEq, Repr

/-- The `error` values `configESP32` returns: `fmt.Errorf` messages and port errors. -/
inductive Error where
  | msg (s : String)
  | port (e : PortError)
  deriving DecidableEq, Repr

/-- The observable actions of the program. -/
inductive Event where
  | portOpen (res : Option PortError)
  | portClose
  | setDTR (level : Bool)
  | sleep (ms : Nat)
  | setReadTimeout (ms : Nat)
  | write (data : List Byte) (res : Option PortError)
  | println (line : List Byte)
  | logln (text : String)
  | stdinRead
  deriving DecidableEq, Repr

/-- The package-level configuration variables read by `configESP32`. -/
structure Config where
  ssid : List Byte
  password : List Byte
  mqttIP : List Byte
  mqttPort : Int
  interval : Int
  sensorType : List Byte
  hasRainSensor : Bool
  deriving DecidableEq, Repr

/-- The environment of one command invocation. -/
structure World where
  /-- outcome of `serial.Open` (`none`: the port opens) -/
  openRes : Option PortError
  /-- outcomes of the successive `p.Read` calls still to come -/
  reads : List ReadResult
  /-- outcomes of the successive `p.Write` calls still to come -/
  writeRes : List (Option PortError)
  /-- what the program has done so far, oldest first -/
  trace : List Event
  deriving DecidableEq, Repr

/-- Record one action in the trace. -/
def World.emit (w : World) (e : Event) : World :=
  { w with trace := w.trace ++ [e] }

/-- `p.Write(data)`: the attempt is recorded with its outcome, which is returned. -/
def World.write (w : World) (data : List Byte) : Option PortError × World :=
  match w.writeRes with
  | [] => (none, { w with trace := w.trace ++ [Event.write data none] })
  | r :: rs => (r, { w with writeRes := rs, trace := w.trace ++ [Event.write data r] })

/-- The `for` loop of `readLine`, with `r` the line accumulated so far.  Each pass takes
the outcome of one `p.Read(buff)`; a read from the exhausted stream reports `io.EOF`.
Returns the Go pair `(line, err)` and the read outcomes not consumed. -/
def readLineLoop : List ReadResult → List Byte → List Byte × Option PortError × List ReadResult
  | [], _ => ([], some PortError.eof, [])
  | ReadResult.fail e :: rest, _ => ([], some e, rest)
  | ReadResult.zero :: rest, r => (r, none, rest)
  | ReadResult.byte b :: rest, r =>
    if b = 0x0a ∨ b = 0x0d then
      if r ≠ [] then (r, none, rest)
      else readLineLoop rest r
    else readLineLoop rest (r ++ [b])

/-- `readLine(p)`: starts with `r := ""` and runs the loop. -/
def readLine (reads : List ReadResult) : List Byte × Option PortError × List ReadResult :=
  readLineLoop reads []

/-- How one pass through the body of the dialog loop ends: `continue`, or `return err`. -/
inductive Flow where
  | next (w : World)
  | done (err : Option Error) (w : World)
  deriving DecidableEq, Repr

/-- The calibration cases: print the instruction, wait for the operator to press
Enter, then write a bare newline.  The outcome of the write is discarded. -/
def operatorStep (w : World) (instruction : String) : World :=
  ((((w.emit (Event.println (str instruction))).emit Event.stdinRead).write (str "\n")).2)

/-- The `switch` of `configESP32`, cases tested in source order.  The outcome of every
`p.Write` is discarded, as in the source. -/
def promptSwitch (cfg : Config) (line : List Byte) (w : World) : Flow :=
  if HasPrefix line (str "enter ssid:") then
    Flow.next (w.write (cfg.ssid ++ str "\n")).2
  else if HasPrefix line (str "enter password:") then
    Flow.next (w.write (cfg.password ++ str "\n")).2
  else if HasPrefix line (str "enter mqtt ip:") then
    Flow.next (w.write (cfg.mqttIP ++ str "\n")).2
  else if HasPrefix line (str "enter mqtt port") then
    Flow.next (w.write (fmtD cfg.mqttPort ++ str "\n")).2
  else if HasPrefix line (str "enter monitor interval") then
    Flow.next (w.write (fmtD cfg.interval ++ str "\n")).2
  else if HasPrefix line (str "enter sensor type") then
    Flow.next (w.write (cfg.sensorType ++ str "\n")).2
  else if HasPrefix line (str "Has rain sensor?") then
    if cfg.hasRainSensor then Flow.next (w.write (str "yes\n")).2
    else Flow.next (w.write (str "no\n")).2
  else if HasPrefix line (str "Prepare for calibration") then
    Flow.next (operatorStep w
      "ACTION: Remove the soil moisture sensor from the soil and dry it. Then press the <Enter> key.")
  else if HasPrefix line (str "Place the soil moisture sensor in water") then
    Flow.next (operatorStep w
      "ACTION: Place the soil moisture sensor in water, then press the <Enter> key.")
  else if HasPrefix line (str "Dry the rain sensor") then
    Flow.next (operatorStep w "ACTION: Dry the rain sensor, then press the <Enter> key.")
  else if HasPrefix line (str "Drop water on the rain sensor") then
    Flow.next (operatorStep w
      "ACTION: Drop water on the rain sensor, then press the <Enter> key.")
  else if HasPrefix line (str "Config ssid=") then
    Flow.done none (w.emit (Event.logln "Config successful."))
  else Flow.next w

/-- What the dialog loop of `configESP32` leaves behind when it returns. -/
structure DialogResult where
  err : Option Error
  gotStart : Bool
  world : World
  deriving DecidableEq, Repr

/-- The `for` loop of `configESP32`.  Each pass consumes one unit of fuel; `none` means
the fuel ran out before the loop returned. -/
def dialogLoop (cfg : Config) : Nat → Bool → World → Option DialogResult
  | 0, _, _ => none
  | fuel + 1, gotStart, w =>
    match readLine w.reads with
    | (_, some e, rest) =>
      if e = PortError.eof then
        some ⟨none, gotStart, { w with reads := rest }.emit
          (Event.logln "Readline EOF, assuming config finished or device disconnected.")⟩
      else some ⟨some (Error.port e), gotStart, { w with reads := rest }⟩
    | (line, none, rest) =>
      let w1 := { w with reads := rest }.emit (Event.println line)
      if !gotStart then
        dialogLoop cfg fuel (if HasPrefix line (str "setup start") then true else gotStart) w1
      else
        match promptSwitch cfg line (w1.emit (Event.sleep 100)) with
        | Flow.next w2 => dialogLoop cfg fuel gotStart w2
        | Flow.done err w2 => some ⟨err, gotStart, w2⟩

/-- What `configESP32` returns and the world it leaves. -/
structure Result where
  err : Option Error
  world : World
  deriving DecidableEq, Repr

/-- The start of `configESP32` when `serial.Open` succeeds: DTR is lowered for 500 ms and
raised again, the device is given 1000 ms to boot, and the read timeout is set to 60 s. -/
def resetPhase (w : World) : World :=
  (((((w.emit (Event.portOpen none)).emit (Event.setDTR false)).emit (Event.sleep 500)).emit
    (Event.setDTR true)).emit (Event.sleep 1000)).emit (Event.setReadTimeout 60000)

/-- The function `configESP32`.  The deferred `p.Close()` runs when the dialog loop
returns.  The result is `none` only if the dialog loop ran out of fuel, which
`configESP32_returns` excludes. -/
def configESP32 (cfg : Config) (w : World) : Option Result :=
  if cfg.ssid = [] then some ⟨some (Error.msg "no ssid"), w⟩
  else if cfg.mqttIP = [] then some ⟨some (Error.msg "no mqttIP"), w⟩
  else
    match w.openRes with
    | some e => some ⟨some (Error.port e), w.emit (Event.portOpen (some e))⟩
    | none =>
      match dialogLoop cfg ((resetPhase w).reads.length + 1) false (resetPhase w) with
      | none => none
      | some d => some ⟨d.err, d.world.emit Event.portClose⟩

/-- The data of the `p.Write` calls recorded in a trace, oldest first. -/
def writesOf : List Event → List (List Byte)
  | [] => []
  | Event.write data _ :: es => data :: writesOf es
  | _ :: es => writesOf es

/-- The lines that successive `readLine` calls return, up to the first call that
reports an error.  At most `fuel` calls are made. -/
def readLines : Nat → List ReadResult → List (List Byte)
  | 0, _ => []
  | fuel + 1, reads =>
    match readLine reads with
    | (_, some _, _) => []
    | (line, none, rest) => line :: readLines fuel rest

/-- CR or LF. -/
def isTerm (b : Byte) : Bool := b = 0x0a ∨ b = 0x0d

/-- Specification side: the non-empty maximal runs of non-terminator bytes of a byte
stream, in stream order. -/
def maximalRuns (bs : List Byte) : List (List Byte) :=
  (bs.splitOnP isTerm).filter (fun l => decide (l ≠ []))

/-- Specification side: the non-empty maximal runs of non-terminator bytes that are
followed by a terminator: the piece after the last terminator is left out. -/
def terminatedRuns (bs : List Byte) : List (List Byte) :=
  ((bs.splitOnP isTerm).dropLast).filter (fun l => decide (l ≠ []))

/-- The twelve texts tested by the `switch` of `configESP32`, in source order. -/
def promptPrefixes : List (List Byte) :=
  [str "enter ssid:", str "enter password:", str "enter mqtt ip:", str "enter mqtt port",
   str "enter monitor interval", str "enter sensor type", str "Has rain sensor?",
   str "Prepare for calibration", str "Place the soil moisture sensor in water",
   str "Dry the rain sensor", str "Drop water on the rain sensor", str "Config ssid="]

/-- Specification side: the seven configuration prompts of the answer table. -/
inductive Prompt where
  | ssid
  | password
  | mqttIP
  | mqttPort
  | interval
  | sensorType
  | rainSensor
  deriving DecidableEq, Repr

/-- The seven configuration prompts, in table order. -/
def Prompt.all : List Prompt :=
  [Prompt.ssid, Prompt.password, Prompt.mqttIP, Prompt.mqttPort, Prompt.interval,
   Prompt.sensorType, Prompt.rainSensor]

/-- The text a configuration prompt line starts with. -/
def Prompt.text : Prompt → List Byte
  | Prompt.ssid => str "enter ssid:"
  | Prompt.password => str "enter password:"
  | Prompt.mqttIP => str "enter mqtt ip:"
  | Prompt.mqttPort => str "enter mqtt port"
  | Prompt.interval => str "enter monitor interval"
  | Prompt.sensorType => str "enter sensor type"
  | Prompt.rainSensor => str "Has rain sensor?"

/-- Specification side: the answer table, the bytes to be written for each
configuration prompt. -/
def answerOf (cfg : Config) : Prompt → List Byte
  | Prompt.ssid => cfg.ssid ++ str "\n"
  | Prompt.password => cfg.password ++ str "\n"
  | Prompt.mqttIP => cfg.mqttIP ++ str "\n"
  | Prompt.mqttPort => fmtD cfg.mqttPort ++ str "\n"
  | Prompt.interval => fmtD cfg.interval ++ str "\n"
  | Prompt.sensorType => cfg.sensorType ++ str "\n"
  | Prompt.rainSensor => if cfg.hasRainSensor then str "yes\n" else str "no\n"

/-- What a case of the `switch` does: answer with some bytes, ask the operator and then
send a bare newline, or report success and return. -/
inductive Action where
  | reply (data : List Byte)
  | operator (instruction : String)
  | success
  deriving DecidableEq, Repr

/-- Carry out the action of a matched case. -/
def runAction (a : Action) (w : World) : Flow :=
  match a with
  | Action.reply data => Flow.next (w.write data).2
  | Action.operator instruction => Flow.next (operatorStep w instruction)
  | Action.success => Flow.done none (w.emit (Event.logln "Config successful."))

/-- Specification side: the `switch` of `configESP32` read as an ordered table of
(text, action) cases, in source order. -/
def promptTable (cfg : Config) : List (List Byte × Action) :=
  [(str "enter ssid:", Action.reply (cfg.ssid ++ str "\n")),
   (str "enter password:", Action.reply (cfg.password ++ str "\n")),
   (str "enter mqtt ip:", Action.reply (cfg.mqttIP ++ str "\n")),
   (str "enter mqtt port", Action.reply (fmtD cfg.mqttPort ++ str "\n")),
   (str "enter monitor interval", Action.reply (fmtD cfg.interval ++ str "\n")),
   (str "enter sensor type", Action.reply (cfg.sensorType ++ str "\n")),
   (str "Has rain sensor?",
     Action.reply (if cfg.hasRainSensor then str "yes\n" else str "no\n")),
   (str "Prepare for calibration", Action.operator
     "ACTION: Remove the soil moisture sensor from the soil and dry it. Then press the <Enter> key."),
   (str "Place the soil moisture sensor in water", Action.operator
     "ACTION: Place the soil moisture sensor in water, then press the <Enter> key."),
   (str "Dry the rain sensor", Action.operator
     "ACTION: Dry the rain sensor, then press the <Enter> key."),
   (str "Drop water on the rain sensor", Action.operator
     "ACTION: Drop water on the rain sensor, then press the <Enter> key."),
   (str "Config ssid=", Action.success)]

/-- Specification side: first-match-wins evaluation of a table of cases on a line, the
action of the first case whose text the line starts with. -/
def firstMatch (table : List (List Byte × Action)) (line : List Byte) : Option Action :=
  (table.find? (fun c => HasPrefix line c.1)).map Prod.snd

/-- Specification side: one read cycle's work on a line, decided by a table of cases. -/
def tableSwitch (table : List (List Byte × Action)) (line : List Byte) (w : World) : Flow :=
  match firstMatch table line with
  | some a => runAction a w
  | none => Flow.next w

/-- The world a pass through the loop body leaves. -/
def Flow.world : Flow → World
  | Flow.next w => w
  | Flow.done _ w => w

/-- The dialog loop run with enough fuel for the pending read outcomes. -/
def dialog (cfg : Config) (gotStart : Bool) (w : World) : Option DialogResult :=
  dialogLoop cfg (w.reads.length + 1) gotStart w

/-- A configuration used in the examples. -/
def sampleConfig : Config :=
  { ssid := str "net", password := str "pw", mqttIP := str "10.0.0.1", mqttPort := 1883,
    interval := 120, sensorType := str "DHT22", hasRainSensor := false }

/-- A world whose port opens, delivers the given read outcomes and reports the given
write outcomes; nothing has happened yet. -/
def World.start (reads : List ReadResult) (writeRes : List (Option PortError)) : World :=
  { openRes := none, reads := reads, writeRes := writeRes, trace := [] }

/-- A prompt line: the text of a configuration prompt followed by anything. -/
def promptLine (q : Prompt × List Byte) : List Byte := q.1.text ++ q.2

/-- Two worlds hold the same pending reads and have seen the same bytes written. -/
def SameTraffic (w v : World) : Prop :=
  w.reads = v.reads ∧ writesOf w.trace = writesOf v.trace

/-- Two runs of the dialog loop agree: both ran out of fuel, or both returned with the
same error, the same state, the same pending reads and the same bytes written. -/
def Agree : Option DialogResult → Option DialogResult → Prop
  | none, none => True
  | some d, some c => d.err = c.err ∧ d.gotStart = c.gotStart ∧ SameTraffic d.world c.world
  | _, _ => False

/-- A device transcript on the wire: every line is followed by the separator `sep`. -/
def wire (sep : List Byte) : List (List Byte) → List ReadResult
  | [] => []
  | l :: ls => (l.map ReadResult.byte ++ sep.map ReadResult.byte) ++ wire sep ls

/-- A transcript in which a write fails: the banner, two prompts and the success marker,
with the first write reporting an error. -/
def failedWriteWorld : World :=
  World.start
    (wire [0x0a] [str "setup start", str "enter ssid:", str "enter password:",
      str "Config ssid=net"])
    [some (PortError.other 5)]

/-! ## The line reader -/

theorem isTerm_iff (b : Byte) : isTerm b = true ↔ (b = 0x0a ∨ b = 0x0d) := by
  simp [isTerm]

theorem readLineLoop_terms (ts : List Byte) (hts : ∀ b ∈ ts, isTerm b = true)
    (tail : List ReadResult) :
    readLineLoop (ts.map ReadResult.byte ++ tail) [] = readLineLoop tail [] := by
  induction ts with
  | nil => rfl
  | cons t ts ih =>
    have ht : t = 0x0a ∨ t = 0x0d := (isTerm_iff t).1 (hts t (List.mem_cons_self _ _))
    have ih2 := ih (fun b hb => hts b (List.mem_cons_of_mem _ hb))
    simp only [List.map_cons, List.cons_append, readLineLoop, if_pos ht]
    simpa using ih2

theorem readLineLoop_run (bs : List Byte) (hbs : ∀ b ∈ bs, isTerm b = false)
    (tail : List ReadResult) (r : List Byte) :
    readLineLoop (bs.map ReadResult.byte ++ tail) r = readLineLoop tail (r ++ bs) := by
  induction bs generalizing r with
  | nil => simp
  | cons b bs ih =>
    have hb : ¬ (b = 0x0a ∨ b = 0x0d) := by
      intro h
      have h1 := (isTerm_iff b).2 h
      rw [hbs b (List.mem_cons_self _ _)] at h1
      exact Bool.false_ne_true h1
    have ih2 := ih (fun c hc => hbs c (List.mem_cons_of_mem _ hc)) (r ++ [b])
    simp only [List.map_cons, List.cons_append, readLineLoop, if_neg hb]
    simpa using ih2

theorem readLineLoop_length_le (reads : List ReadResult) (r : List Byte) :
    (readLineLoop reads r).2.2.length ≤ reads.length := by
  induction reads generalizing r with
  | nil => simp [readLineLoop]
  | cons x rest ih =>
    cases x with
    | fail e => simp [readLineLoop]
    | zero => simp [readLineLoop]
    | byte b =>
      simp only [readLineLoop]
      split_ifs
      · simp
      · exact Nat.le_succ_of_le (ih r)
      · exact Nat.le_succ_of_le (ih _)

theorem readLineLoop_length_lt (reads : List ReadResult) (r : List Byte)
    (h : (readLineLoop reads r).2.1 = none) :
    (readLineLoop reads r).2.2.length < reads.length := by
  induction reads generalizing r with
  | nil => simp [readLineLoop] at h
  | cons x rest ih =>
    cases x with
    | fail e => simp [readLineLoop] at h
    | zero => simp [readLineLoop]
    | byte b =>
      simp only [readLineLoop] at h ⊢
      split_ifs at h ⊢
      · simp
      · exact Nat.lt_succ_of_lt (ih r h)
      · exact Nat.lt_succ_of_lt (ih _ h)

theorem readLine_length_lt (reads : List ReadResult) (line : List Byte)
    (rest : List ReadResult) (h : readLine reads = (line, none, rest)) :
    rest.length < reads.length := by
  have h1 := readLineLoop_length_lt reads []
  unfold readLine at h
  rw [h] at h1
  exact h1 rfl

theorem readLineLoop_suffix (reads : List ReadResult) (r : List Byte) :
    (readLineLoop reads r).2.2 <:+ reads := by
  induction reads generalizing r with
  | nil => simp [readLineLoop]
  | cons x rest ih =>
    cases x with
    | fail e => simp [readLineLoop]
    | zero => simp [readLineLoop]
    | byte b =>
      simp only [readLineLoop]
      split_ifs
      · simp
      · exact (ih r).trans (List.suffix_cons _ _)
      · exact (ih _).trans (List.suffix_cons _ _)

theorem readLineLoop_err_mem (reads : List ReadResult) (r : List Byte) (e : PortError)
    (h : (readLineLoop reads r).2.1 = some e) :
    e = PortError.eof ∨ ReadResult.fail e ∈ reads := by
  induction reads generalizing r with
  | nil =>
    simp [readLineLoop] at h
    exact Or.inl h.symm
  | cons x rest ih =>
    cases x with
    | fail e2 =>
      simp [readLineLoop] at h
      simp [h]
    | zero => simp [readLineLoop] at h
    | byte b =>
      simp only [readLineLoop] at h
      split_ifs at h
      · exact (ih r h).imp id (List.mem_cons_of_mem _)
      · exact (ih _ h).imp id (List.mem_cons_of_mem _)

/-- A complete line: terminators read while the buffer is empty are skipped, then a
non-empty run of non-terminator bytes followed by one terminator is returned. -/
theorem readLine_line (ts line : List Byte) (t : Byte) (rest : List ReadResult)
    (hts : ∀ b ∈ ts, isTerm b = true) (hline : ∀ b ∈ line, isTerm b = false)
    (hne : line ≠ []) (ht : isTerm t = true) :
    readLine (ts.map ReadResult.byte ++ (line.map ReadResult.byte ++ ReadResult.byte t :: rest))
      = (line, none, rest) := by
  unfold readLine
  rw [readLineLoop_terms ts hts, readLineLoop_run line hline]
  have ht2 : t = 0x0a ∨ t = 0x0d := (isTerm_iff t).1 ht
  simp [readLineLoop, ht2, hne]

theorem readLines_succ (fuel : Nat) (reads : List ReadResult) (line : List Byte)
    (rest : List ReadResult) (h : readLine reads = (line, none, rest)) :
    readLines (fuel + 1) reads = line :: readLines fuel rest := by
  simp only [readLines, h]

theorem readLines_step (fuel : Nat) (bs r : List Byte) (tail : List ReadResult)
    (ht : tail = [] ∨ ∃ e rest, tail = ReadResult.fail e :: rest) (h : bs.length ≤ fuel) :
    (match readLineLoop (bs.map ReadResult.byte ++ tail) r with
      | (_, some _, _) => []
      | (line, none, rest) => line :: readLines fuel rest)
      = (((bs.splitOnP isTerm).modifyHead (fun s => r ++ s)).dropLast).filter
          (fun l => decide (l ≠ [])) := by
  induction bs generalizing r fuel with
  | nil =>
    rcases ht with rfl | ⟨e, rest, rfl⟩ <;> simp [readLineLoop, List.splitOnP_nil]
  | cons b bs ih =>
    have hne : bs.splitOnP isTerm ≠ [] := List.splitOnP_ne_nil _ _
    by_cases hb : b = 0x0a ∨ b = 0x0d
    · have hb2 : isTerm b = true := (isTerm_iff b).2 hb
      by_cases hr : r = []
      · subst hr
        have ih2 := ih fuel [] (Nat.le_of_succ_le h)
        simp only [List.map_cons, List.cons_append, readLineLoop, List.append_eq, if_pos hb, ne_eq,
          not_true_eq_false, if_false]
        rw [ih2, List.splitOnP_cons, if_pos hb2]
        simp [List.dropLast_cons_of_ne_nil hne]
        congr 2
        cases hs : List.splitOnP isTerm bs with
        | nil => rfl
        | cons a l => simp
      · obtain ⟨f, rfl⟩ : ∃ f, fuel = f + 1 := ⟨fuel - 1, by simp at h; omega⟩
        have ih2 := ih f [] (by simpa using h)
        simp only [List.map_cons, List.cons_append, readLineLoop, List.append_eq, if_pos hb, ne_eq, hr,
          not_false_eq_true, if_true]
        rw [List.splitOnP_cons, if_pos hb2]
        simp only [readLines, readLine]
        rw [ih2]
        simp [List.dropLast_cons_of_ne_nil hne, hr]
        congr 2
        cases hs : List.splitOnP isTerm bs with
        | nil => rfl
        | cons a l => simp
    · have hb2 : isTerm b = false := by
        cases hc : isTerm b with
        | false => rfl
        | true => exact absurd ((isTerm_iff b).1 hc) hb
      have ih2 := ih fuel (r ++ [b]) (Nat.le_of_succ_le h)
      simp only [List.map_cons, List.cons_append, readLineLoop, List.append_eq, if_neg hb]
      rw [ih2, List.splitOnP_cons, hb2]
      simp [Function.comp_def]

theorem readLines_map_byte (fuel : Nat) (bs : List Byte) (tail : List ReadResult)
    (ht : tail = [] ∨ ∃ e rest, tail = ReadResult.fail e :: rest) (h : bs.length < fuel) :
    readLines fuel (bs.map ReadResult.byte ++ tail) = terminatedRuns bs := by
  obtain ⟨f, rfl⟩ : ∃ f, fuel = f + 1 := ⟨fuel - 1, by omega⟩
  have hs := readLines_step f bs [] tail ht (by omega)
  simp only [readLines, readLine, terminatedRuns]
  rw [hs]
  congr 2
  cases List.splitOnP isTerm bs with
  | nil => rfl
  | cons a l => simp

theorem splitOnP_isTerm_free (bs : List Byte) :
    ∀ l ∈ bs.splitOnP isTerm, ∀ b ∈ l, isTerm b = false := by
  induction bs with
  | nil => simp [List.splitOnP_nil]
  | cons x xs ih =>
    rw [List.splitOnP_cons]
    cases hx : isTerm x with
    | true =>
      intro l hl
      simp only [if_true, List.mem_cons] at hl
      rcases hl with rfl | hl
      · simp
      · exact ih l hl
    | false =>
      intro l hl
      simp only [Bool.false_eq_true, if_false] at hl
      cases hs : List.splitOnP isTerm xs with
      | nil => simp [hs] at hl
      | cons a rest =>
        rw [hs] at hl ih
        simp only [List.modifyHead_cons, List.mem_cons] at hl
        rcases hl with rfl | hl
        · intro b hb
          simp only [List.mem_cons] at hb
          rcases hb with rfl | hb
          · exact hx
          · exact ih a (List.mem_cons_self _ _) b hb
        · exact ih l (List.mem_cons_of_mem _ hl)

theorem splitOnP_append_term (bs : List Byte) (t : Byte) (ht : isTerm t = true) :
    (bs ++ [t]).splitOnP isTerm = bs.splitOnP isTerm ++ [[]] := by
  induction bs with
  | nil => simp [List.splitOnP_cons, List.splitOnP_nil, ht]
  | cons x xs ih =>
    rw [List.cons_append, List.splitOnP_cons, List.splitOnP_cons, ih]
    cases hx : isTerm x with
    | true => simp
    | false =>
      cases hs : List.splitOnP isTerm xs with
      | nil => exact absurd hs (List.splitOnP_ne_nil _ _)
      | cons a rest => simp

/-- When the stream is empty or ends with a terminator, the runs that are followed by a
terminator are all the non-empty maximal runs. -/
theorem terminatedRuns_eq_maximalRuns (bs : List Byte) (t : Byte) (ht : isTerm t = true) :
    terminatedRuns (bs ++ [t]) = maximalRuns (bs ++ [t]) := by
  simp [terminatedRuns, maximalRuns, splitOnP_append_term bs t ht, List.filter_append]

theorem wire_append (sep : List Byte) (a b : List (List Byte)) :
    wire sep (a ++ b) = wire sep a ++ wire sep b := by
  induction a with
  | nil => rfl
  | cons l ls ih => simp [wire, ih]

theorem readLine_wire (t : Byte) (sep ts l : List Byte) (ls : List (List Byte))
    (tail : List ReadResult) (ht : isTerm t = true) (hts : ∀ b ∈ ts, isTerm b = true)
    (hl : ∀ b ∈ l, isTerm b = false) (hne : l ≠ []) :
    readLine (ts.map ReadResult.byte ++ (wire (t :: sep) (l :: ls) ++ tail))
      = (l, none, sep.map ReadResult.byte ++ (wire (t :: sep) ls ++ tail)) := by
  have h := readLine_line ts l t (sep.map ReadResult.byte ++ (wire (t :: sep) ls ++ tail))
    hts hl hne ht
  simpa [wire] using h

/-! ## The world -/

@[simp] theorem emit_reads (w : World) (e : Event) : (w.emit e).reads = w.reads := rfl

@[simp] theorem emit_writeRes (w : World) (e : Event) : (w.emit e).writeRes = w.writeRes := rfl

@[simp] theorem emit_openRes (w : World) (e : Event) : (w.emit e).openRes = w.openRes := rfl

@[simp] theorem emit_trace (w : World) (e : Event) : (w.emit e).trace = w.trace ++ [e] := rfl

@[simp] theorem write_reads (w : World) (d : List Byte) : (w.write d).2.reads = w.reads := by
  unfold World.write
  cases w.writeRes <;> rfl

@[simp] theorem write_openRes (w : World) (d : List Byte) :
    (w.write d).2.openRes = w.openRes := by
  unfold World.write
  cases w.writeRes <;> rfl

@[simp] theorem write_trace (w : World) (d : List Byte) :
    (w.write d).2.trace = w.trace ++ [Event.write d (w.write d).1] := by
  unfold World.write
  cases w.writeRes <;> rfl

@[simp] theorem write_writeRes (w : World) (d : List Byte) :
    (w.write d).2.writeRes = w.writeRes.tail := by
  unfold World.write
  cases w.writeRes <;> rfl

@[simp] theorem writesOf_append (a b : List Event) :
    writesOf (a ++ b) = writesOf a ++ writesOf b := by
  induction a with
  | nil => rfl
  | cons e es ih => cases e <;> simp [writesOf, ih]

@[simp] theorem operatorStep_reads (w : World) (s : String) :
    (operatorStep w s).reads = w.reads := by
  simp [operatorStep]

@[simp] theorem operatorStep_writes (w : World) (s : String) :
    writesOf (operatorStep w s).trace = writesOf w.trace ++ [str "\n"] := by
  simp [operatorStep, writesOf]

theorem sameTraffic_emit (w v : World) (h : SameTraffic w v) (e : Event)
    (he : writesOf [e] = []) : SameTraffic (w.emit e) (v.emit e) := by
  unfold SameTraffic at *
  simp [h.1, h.2, he]

theorem sameTraffic_write (w v : World) (h : SameTraffic w v) (d : List Byte) :
    SameTraffic (w.write d).2 (v.write d).2 := by
  unfold SameTraffic at *
  simp [h.1, h.2, writesOf]

/-! ## The prompt switch -/

set_option maxRecDepth 100000 in
theorem promptPrefixes_disjoint :
    ∀ p ∈ promptPrefixes, ∀ q ∈ promptPrefixes, p <+: q → p = q := by
  decide

set_option maxRecDepth 100000 in
theorem promptPrefixes_nodup : promptPrefixes.Nodup := by
  decide

set_option maxRecDepth 100000 in
theorem banner_disjoint :
    ∀ p ∈ promptPrefixes, ¬ p <+: str "setup start" ∧ ¬ str "setup start" <+: p := by
  decide

theorem hasPrefix_unique (line p q : List Byte) (hp : p ∈ promptPrefixes)
    (hq : q ∈ promptPrefixes) (h1 : HasPrefix line p = true) (h2 : HasPrefix line q = true) :
    p = q := by
  simp only [HasPrefix, List.isPrefixOf_iff_prefix] at h1 h2
  rcases Nat.le_total p.length q.length with h | h
  · exact promptPrefixes_disjoint p hp q hq (List.prefix_of_prefix_length_le h1 h2 h)
  · exact (promptPrefixes_disjoint q hq p hp (List.prefix_of_prefix_length_le h2 h1 h)).symm

theorem hasPrefix_table (line p : List Byte) (hp : p ∈ promptPrefixes)
    (h1 : HasPrefix line p = true) :
    ∀ q ∈ promptPrefixes, HasPrefix line q = decide (q = p) := by
  intro q hq
  by_cases e : q = p
  · subst e; simp [h1]
  · simp only [e, decide_False]
    cases h2 : HasPrefix line q with
    | false => rfl
    | true => exact absurd (hasPrefix_unique line p q hp hq h1 h2).symm e

theorem Prompt.text_mem (p : Prompt) : p.text ∈ promptPrefixes := by
  cases p <;> simp [Prompt.text, promptPrefixes]

set_option maxRecDepth 100000 in
theorem Prompt.text_free (p : Prompt) : ∀ b ∈ p.text, isTerm b = false := by
  cases p <;> decide

set_option maxRecDepth 100000 in
theorem Prompt.text_ne_nil (p : Prompt) : p.text ≠ [] := by
  cases p <;> decide

theorem promptLine_free (q : Prompt × List Byte) (hq : ∀ b ∈ q.2, isTerm b = false) :
    ∀ b ∈ promptLine q, isTerm b = false := by
  intro b hb
  simp only [promptLine, List.mem_append] at hb
  rcases hb with hb | hb
  · exact q.1.text_free b hb
  · exact hq b hb

theorem promptLine_ne_nil (q : Prompt × List Byte) : promptLine q ≠ [] := by
  simp [promptLine, q.1.text_ne_nil]

theorem hasPrefix_promptLine (q : Prompt × List Byte) :
    HasPrefix (promptLine q) q.1.text = true := by
  simp [HasPrefix, promptLine]

set_option maxRecDepth 100000 in
theorem promptSwitch_prompt (cfg : Config) (p : Prompt) (line : List Byte) (w : World)
    (h : HasPrefix line p.text = true) :
    promptSwitch cfg line w = Flow.next (w.write (answerOf cfg p)).2 := by
  have ht := hasPrefix_table line _ p.text_mem h
  simp only [promptPrefixes, List.forall_mem_cons] at ht
  cases p <;> simp only [Prompt.text] at ht <;>
    simp +decide [promptSwitch, ht, answerOf]
  cases cfg.hasRainSensor <;> simp

set_option maxRecDepth 100000 in
theorem promptSwitch_success (cfg : Config) (line : List Byte) (w : World)
    (h : HasPrefix line (str "Config ssid=") = true) :
    promptSwitch cfg line w = Flow.done none (w.emit (Event.logln "Config successful.")) := by
  have ht := hasPrefix_table line _ (by simp [promptPrefixes]) h
  simp only [promptPrefixes, List.forall_mem_cons] at ht
  simp +decide [promptSwitch, ht]

theorem promptSwitch_unmatched (cfg : Config) (line : List Byte) (w : World)
    (h : ∀ p ∈ promptPrefixes, HasPrefix line p = false) :
    promptSwitch cfg line w = Flow.next w := by
  simp only [promptPrefixes, List.forall_mem_cons] at h
  simp [promptSwitch, h]

theorem promptTable_keys (cfg : Config) :
    (promptTable cfg).map Prod.fst = promptPrefixes := rfl

theorem promptSwitch_eq_tableSwitch (cfg : Config) (line : List Byte) (w : World) :
    promptSwitch cfg line w = tableSwitch (promptTable cfg) line w := by
  unfold promptSwitch tableSwitch firstMatch promptTable
  by_cases h1 : HasPrefix line (str "enter ssid:") = true
  · simp [h1, runAction, List.find?]
  by_cases h2 : HasPrefix line (str "enter password:") = true
  · simp [h1, h2, runAction, List.find?]
  by_cases h3 : HasPrefix line (str "enter mqtt ip:") = true
  · simp [h1, h2, h3, runAction, List.find?]
  by_cases h4 : HasPrefix line (str "enter mqtt port") = true
  · simp [h1, h2, h3, h4, runAction, List.find?]
  by_cases h5 : HasPrefix line (str "enter monitor interval") = true
  · simp [h1, h2, h3, h4, h5, runAction, List.find?]
  by_cases h6 : HasPrefix line (str "enter sensor type") = true
  · simp [h1, h2, h3, h4, h5, h6, runAction, List.find?]
  by_cases h7 : HasPrefix line (str "Has rain sensor?") = true
  · cases hr : cfg.hasRainSensor <;> simp [h1, h2, h3, h4, h5, h6, h7, runAction, List.find?]
  by_cases h8 : HasPrefix line (str "Prepare for calibration") = true
  · simp [h1, h2, h3, h4, h5, h6, h7, h8, runAction, List.find?]
  by_cases h9 : HasPrefix line (str "Place the soil moisture sensor in water") = true
  · simp [h1, h2, h3, h4, h5, h6, h7, h8, h9, runAction, List.find?]
  by_cases h10 : HasPrefix line (str "Dry the rain sensor") = true
  · simp [h1, h2, h3, h4, h5, h6, h7, h8, h9, h10, runAction, List.find?]
  by_cases h11 : HasPrefix line (str "Drop water on the rain sensor") = true
  · simp [h1, h2, h3, h4, h5, h6, h7, h8, h9, h10, h11, runAction, List.find?]
  by_cases h12 : HasPrefix line (str "Config ssid=") = true
  · simp [h1, h2, h3, h4, h5, h6, h7, h8, h9, h10, h11, h12, runAction, List.find?]
  simp [h1, h2, h3, h4, h5, h6, h7, h8, h9, h10, h11, h12, List.find?]

@[simp] theorem promptSwitch_reads (cfg : Config) (line : List Byte) (w : World) :
    (promptSwitch cfg line w).world.reads = w.reads := by
  rw [promptSwitch_eq_tableSwitch]
  unfold tableSwitch
  cases firstMatch (promptTable cfg) line with
  | none => rfl
  | some a => cases a <;> simp [runAction, Flow.world]

theorem promptSwitch_next_reads (cfg : Config) (line : List Byte) (w w2 : World)
    (h : promptSwitch cfg line w = Flow.next w2) : w2.reads = w.reads := by
  have := promptSwitch_reads cfg line w
  rw [h] at this
  exact this

theorem promptSwitch_done_err (cfg : Config) (line : List Byte) (w w2 : World)
    (err : Option Error) (h : promptSwitch cfg line w = Flow.done err w2) : err = none := by
  rw [promptSwitch_eq_tableSwitch] at h
  unfold tableSwitch at h
  cases hm : firstMatch (promptTable cfg) line with
  | none => simp [hm] at h
  | some a =>
    rw [hm] at h
    cases a <;> simp [runAction] at h
    exact h.1.symm

theorem promptSwitch_sim (cfg : Config) (line : List Byte) (w v : World) (h : SameTraffic w v) :
    match promptSwitch cfg line w, promptSwitch cfg line v with
    | Flow.next a, Flow.next b => SameTraffic a b
    | Flow.done e a, Flow.done e2 b => e = e2 ∧ SameTraffic a b
    | _, _ => False := by
  rw [promptSwitch_eq_tableSwitch, promptSwitch_eq_tableSwitch]
  unfold tableSwitch
  cases firstMatch (promptTable cfg) line with
  | none => exact h
  | some a =>
    cases a with
    | reply data => exact sameTraffic_write w v h data
    | operator s =>
      simp only [runAction, operatorStep]
      exact sameTraffic_write _ _
        (sameTraffic_emit _ _ (sameTraffic_emit _ _ h (Event.println (str s)) rfl) Event.stdinRead rfl) _
    | success => exact ⟨rfl, sameTraffic_emit _ _ h _ rfl⟩

theorem find_perm_of_unique {α : Type} (f : α → Bool) (l m : List α) (hp : m.Perm l)
    (hu : ∀ a ∈ l, ∀ b ∈ l, f a = true → f b = true → a = b) :
    m.find? f = l.find? f := by
  cases hl : l.find? f with
  | none =>
    rw [List.find?_eq_none] at hl ⊢
    exact fun x hx => hl x (hp.subset hx)
  | some a =>
    have ha : a ∈ l := List.mem_of_find?_eq_some hl
    have hfa : f a = true := List.find?_some hl
    cases hm : m.find? f with
    | none =>
      rw [List.find?_eq_none] at hm
      exact absurd hfa (hm a (hp.symm.subset ha))
    | some b =>
      have hb : b ∈ l := hp.subset (List.mem_of_find?_eq_some hm)
      have hfb : f b = true := List.find?_some hm
      rw [hu a ha b hb hfa hfb]

/-! ## The dialog loop -/

theorem dialogLoop_fail (cfg : Config) (fuel : Nat) (gs : Bool) (w : World)
    (line : List Byte) (e : PortError) (rest : List ReadResult)
    (h : readLine w.reads = (line, some e, rest)) :
    dialogLoop cfg (fuel + 1) gs w =
      if e = PortError.eof then
        some ⟨none, gs, { w with reads := rest }.emit
          (Event.logln "Readline EOF, assuming config finished or device disconnected.")⟩
      else some ⟨some (Error.port e), gs, { w with reads := rest }⟩ := by
  simp only [dialogLoop, h]

theorem dialogLoop_sync (cfg : Config) (fuel : Nat) (w : World)
    (line : List Byte) (rest : List ReadResult)
    (h : readLine w.reads = (line, none, rest)) :
    dialogLoop cfg (fuel + 1) false w =
      dialogLoop cfg fuel (HasPrefix line (str "setup start"))
        ({ w with reads := rest }.emit (Event.println line)) := by
  simp only [dialogLoop, h]
  cases HasPrefix line (str "setup start") <;> simp

theorem dialogLoop_answer (cfg : Config) (fuel : Nat) (w : World)
    (line : List Byte) (rest : List ReadResult)
    (h : readLine w.reads = (line, none, rest)) :
    dialogLoop cfg (fuel + 1) true w =
      match promptSwitch cfg line
          (({ w with reads := rest }.emit (Event.println line)).emit (Event.sleep 100)) with
      | Flow.next w2 => dialogLoop cfg fuel true w2
      | Flow.done err w2 => some ⟨err, true, w2⟩ := by
  simp only [dialogLoop, h]
  simp

/-- The result of the dialog loop does not depend on the fuel, once there is more fuel
than pending read outcomes. -/
theorem dialogLoop_fuel (cfg : Config) (f1 : Nat) :
    ∀ (f2 : Nat) (gs : Bool) (w : World), w.reads.length < f1 → w.reads.length < f2 →
      dialogLoop cfg f1 gs w = dialogLoop cfg f2 gs w := by
  induction f1 with
  | zero => intro f2 gs w h1; exact absurd h1 (Nat.not_lt_zero _)
  | succ f1 ih =>
    intro f2 gs w h1 h2
    obtain ⟨f2, rfl⟩ : ∃ f, f2 = f + 1 := ⟨f2 - 1, by omega⟩
    rcases hr : readLine w.reads with ⟨line, err, rest⟩
    cases err with
    | some e => rw [dialogLoop_fail cfg f1 gs w line e rest hr, dialogLoop_fail cfg f2 gs w line e rest hr]
    | none =>
      have hlt := readLine_length_lt _ _ _ hr
      cases gs with
      | false =>
        rw [dialogLoop_sync cfg f1 w line rest hr, dialogLoop_sync cfg f2 w line rest hr]
        apply ih <;> simp <;> omega
      | true =>
        rw [dialogLoop_answer cfg f1 w line rest hr, dialogLoop_answer cfg f2 w line rest hr]
        cases hs : promptSwitch cfg line
            (({ w with reads := rest }.emit (Event.println line)).emit (Event.sleep 100)) with
        | done err w2 => rfl
        | next w2 =>
          have hw2 := promptSwitch_next_reads _ _ _ _ hs
          simp only [emit_reads] at hw2
          simp only
          apply ih <;> rw [hw2] <;> omega

/-- The dialog loop returns whenever it is given more fuel than there are pending read
outcomes. -/
theorem dialogLoop_returns (cfg : Config) (fuel : Nat) :
    ∀ (gs : Bool) (w : World), w.reads.length < fuel →
      ∃ d, dialogLoop cfg fuel gs w = some d := by
  induction fuel with
  | zero => intro gs w h1; exact absurd h1 (Nat.not_lt_zero _)
  | succ f ih =>
    intro gs w h1
    rcases hr : readLine w.reads with ⟨line, err, rest⟩
    cases err with
    | some e =>
      rw [dialogLoop_fail cfg f gs w line e rest hr]
      split_ifs <;> exact ⟨_, rfl⟩
    | none =>
      have hlt := readLine_length_lt _ _ _ hr
      cases gs with
      | false =>
        rw [dialogLoop_sync cfg f w line rest hr]
        apply ih
        simp
        omega
      | true =>
        rw [dialogLoop_answer cfg f w line rest hr]
        cases hs : promptSwitch cfg line
            (({ w with reads := rest }.emit (Event.println line)).emit (Event.sleep 100)) with
        | done err w2 => exact ⟨_, rfl⟩
        | next w2 =>
          have hw2 := promptSwitch_next_reads _ _ _ _ hs
          simp only [emit_reads] at hw2
          simp only
          apply ih
          rw [hw2]
          omega

/-- The function `configESP32` always returns. -/
theorem configESP32_returns (cfg : Config) (w : World) : ∃ r, configESP32 cfg w = some r := by
  unfold configESP32
  split_ifs
  · exact ⟨_, rfl⟩
  · exact ⟨_, rfl⟩
  · cases w.openRes with
    | some e => exact ⟨_, rfl⟩
    | none =>
      obtain ⟨d, hd⟩ := dialogLoop_returns cfg ((resetPhase w).reads.length + 1) false
        (resetPhase w) (Nat.lt_succ_self _)
      simp only [hd]
      exact ⟨_, rfl⟩

theorem dialog_fail (cfg : Config) (gs : Bool) (w : World)
    (line : List Byte) (e : PortError) (rest : List ReadResult)
    (h : readLine w.reads = (line, some e, rest)) :
    dialog cfg gs w =
      if e = PortError.eof then
        some ⟨none, gs, { w with reads := rest }.emit
          (Event.logln "Readline EOF, assuming config finished or device disconnected.")⟩
      else some ⟨some (Error.port e), gs, { w with reads := rest }⟩ :=
  dialogLoop_fail cfg _ gs w line e rest h

theorem dialog_sync (cfg : Config) (w : World) (line : List Byte) (rest : List ReadResult)
    (h : readLine w.reads = (line, none, rest)) :
    dialog cfg false w =
      dialog cfg (HasPrefix line (str "setup start"))
        ({ w with reads := rest }.emit (Event.println line)) := by
  have hlt := readLine_length_lt _ _ _ h
  unfold dialog
  rw [dialogLoop_sync cfg _ w line rest h]
  apply dialogLoop_fuel
  · simp; omega
  · simp

theorem dialog_answer (cfg : Config) (w : World) (line : List Byte) (rest : List ReadResult)
    (h : readLine w.reads = (line, none, rest)) :
    dialog cfg true w =
      match promptSwitch cfg line
          (({ w with reads := rest }.emit (Event.println line)).emit (Event.sleep 100)) with
      | Flow.next w2 => dialog cfg true w2
      | Flow.done err w2 => some ⟨err, true, w2⟩ := by
  have hlt := readLine_length_lt _ _ _ h
  unfold dialog
  rw [dialogLoop_answer cfg _ w line rest h]
  cases hs : promptSwitch cfg line
      (({ w with reads := rest }.emit (Event.println line)).emit (Event.sleep 100)) with
  | done err w2 => rfl
  | next w2 =>
    have hw2 := promptSwitch_next_reads _ _ _ _ hs
    simp only [emit_reads] at hw2
    simp only
    apply dialogLoop_fuel <;> rw [hw2] <;> omega

theorem configESP32_eq_dialog (cfg : Config) (w : World) (h1 : cfg.ssid ≠ [])
    (h2 : cfg.mqttIP ≠ []) (h3 : w.openRes = none) :
    configESP32 cfg w =
      (dialog cfg false (resetPhase w)).map
        (fun d => ⟨d.err, d.world.emit Event.portClose⟩) := by
  unfold configESP32 dialog
  rw [if_neg h1, if_neg h2, h3]
  cases dialogLoop cfg ((resetPhase w).reads.length + 1) false (resetPhase w) <;> rfl

/-- When the only read failures the device stream holds are end-of-stream, the dialog
loop returns nil. -/
theorem dialogLoop_nil_of_eof_only (cfg : Config) (fuel : Nat) :
    ∀ (gs : Bool) (w : World), w.reads.length < fuel →
      (∀ e, ReadResult.fail e ∈ w.reads → e = PortError.eof) →
      ∃ d, dialogLoop cfg fuel gs w = some d ∧ d.err = none := by
  induction fuel with
  | zero => intro gs w h1; exact absurd h1 (Nat.not_lt_zero _)
  | succ f ih =>
    intro gs w h1 hall
    rcases hr : readLine w.reads with ⟨line, err, rest⟩
    have hsuf : rest <:+ w.reads := by
      have := readLineLoop_suffix w.reads []
      unfold readLine at hr
      rw [hr] at this
      exact this
    have hall2 : ∀ e, ReadResult.fail e ∈ rest → e = PortError.eof :=
      fun e he => hall e (hsuf.subset he)
    cases err with
    | some e =>
      have he : e = PortError.eof := by
        have := readLineLoop_err_mem w.reads [] e (by unfold readLine at hr; rw [hr])
        rcases this with h | h
        · exact h
        · exact hall e h
      rw [dialogLoop_fail cfg f gs w line e rest hr, if_pos he]
      exact ⟨_, rfl, rfl⟩
    | none =>
      have hlt := readLine_length_lt _ _ _ hr
      cases gs with
      | false =>
        rw [dialogLoop_sync cfg f w line rest hr]
        apply ih
        · simp; omega
        · simpa using hall2
      | true =>
        rw [dialogLoop_answer cfg f w line rest hr]
        cases hs : promptSwitch cfg line
            (({ w with reads := rest }.emit (Event.println line)).emit (Event.sleep 100)) with
        | done err w2 =>
          have := promptSwitch_done_err _ _ _ _ _ hs
          subst this
          exact ⟨_, rfl, rfl⟩
        | next w2 =>
          have hw2 := promptSwitch_next_reads _ _ _ _ hs
          simp only [emit_reads] at hw2
          simp only
          apply ih
          · rw [hw2]; omega
          · rw [hw2]; exact hall2

/-- Runs of the dialog loop from worlds with the same pending reads and the same bytes
written so far agree, whatever the outcomes of the writes are. -/
theorem dialogLoop_sim (cfg : Config) (fuel : Nat) :
    ∀ (gs : Bool) (w v : World), SameTraffic w v →
      Agree (dialogLoop cfg fuel gs w) (dialogLoop cfg fuel gs v) := by
  induction fuel with
  | zero => intro gs w v _; simp [dialogLoop, Agree]
  | succ f ih =>
    intro gs w v h
    rcases hr : readLine w.reads with ⟨line, err, rest⟩
    have hr2 : readLine v.reads = (line, err, rest) := by rw [← h.1]; exact hr
    have hws : SameTraffic { w with reads := rest } { v with reads := rest } := ⟨rfl, h.2⟩
    cases err with
    | some e =>
      rw [dialogLoop_fail cfg f gs w line e rest hr, dialogLoop_fail cfg f gs v line e rest hr2]
      split_ifs
      · exact ⟨rfl, rfl, sameTraffic_emit _ _ hws _ rfl⟩
      · exact ⟨rfl, rfl, hws⟩
    | none =>
      cases gs with
      | false =>
        rw [dialogLoop_sync cfg f w line rest hr, dialogLoop_sync cfg f v line rest hr2]
        exact ih _ _ _ (sameTraffic_emit _ _ hws _ rfl)
      | true =>
        rw [dialogLoop_answer cfg f w line rest hr, dialogLoop_answer cfg f v line rest hr2]
        have hs := promptSwitch_sim cfg line _ _
          (sameTraffic_emit _ _ (sameTraffic_emit _ _ hws (Event.println line) rfl) (Event.sleep 100) rfl)
        revert hs
        cases promptSwitch cfg line
            (({ w with reads := rest }.emit (Event.println line)).emit (Event.sleep 100)) with
        | next a =>
          cases promptSwitch cfg line
              (({ v with reads := rest }.emit (Event.println line)).emit (Event.sleep 100)) with
          | next b => intro hs; exact ih _ _ _ hs
          | done e2 b => intro hs; exact hs.elim
        | done e a =>
          cases promptSwitch cfg line
              (({ v with reads := rest }.emit (Event.println line)).emit (Event.sleep 100)) with
          | next b => intro hs; exact hs.elim
          | done e2 b => intro hs; exact ⟨hs.1, rfl, hs.2⟩

theorem dialogLoop_no_banner (cfg : Config) (fuel : Nat) :
    ∀ (w : World), w.reads.length < fuel →
      (∀ l ∈ readLines fuel w.reads, HasPrefix l (str "setup start") = false) →
      ∃ d, dialogLoop cfg fuel false w = some d ∧ d.gotStart = false
        ∧ writesOf d.world.trace = writesOf w.trace ∧ d.world.writeRes = w.writeRes := by
  induction fuel with
  | zero => intro w h1; exact absurd h1 (Nat.not_lt_zero _)
  | succ f ih =>
    intro w h1 hall
    rcases hr : readLine w.reads with ⟨line, err, rest⟩
    cases err with
    | some e =>
      rw [dialogLoop_fail cfg f false w line e rest hr]
      split_ifs
      · exact ⟨_, rfl, rfl, by simp [writesOf], rfl⟩
      · exact ⟨_, rfl, rfl, rfl, rfl⟩
    | none =>
      have hlt := readLine_length_lt _ _ _ hr
      rw [readLines_succ f w.reads line rest hr] at hall
      have hline : HasPrefix line (str "setup start") = false :=
        hall line (List.mem_cons_self _ _)
      rw [dialogLoop_sync cfg f w line rest hr, hline]
      obtain ⟨d, hd, h2, h3, h4⟩ := ih ({ w with reads := rest }.emit (Event.println line))
        (by simp; omega) (fun l hl => hall l (List.mem_cons_of_mem _ (by simpa using hl)))
      refine ⟨d, hd, h2, ?_, ?_⟩
      · rw [h3]; simp [writesOf]
      · rw [h4]; rfl

set_option maxRecDepth 100000 in
/-- The synchronisation step on a transcript that starts with the banner line. -/
theorem dialog_banner (cfg : Config) (t : Byte) (sep : List Byte) (ls : List (List Byte))
    (tail : List ReadResult) (w : World) (ht : isTerm t = true)
    (hw : w.reads = wire (t :: sep) (str "setup start" :: ls) ++ tail) :
    dialog cfg false w = dialog cfg true
      ({ w with reads := sep.map ReadResult.byte ++ (wire (t :: sep) ls ++ tail) }.emit
        (Event.println (str "setup start"))) := by
  have hb : readLine w.reads = (str "setup start", none,
      sep.map ReadResult.byte ++ (wire (t :: sep) ls ++ tail)) := by
    have := readLine_wire t sep [] (str "setup start") ls tail ht (by simp)
      (by decide) (by decide)
    simpa [hw] using this
  have hb2 : HasPrefix (str "setup start") (str "setup start") = true := by decide
  rw [dialog_sync cfg _ _ _ hb, hb2]

/-- The stream ends: after terminators only, the next read reports end-of-stream and
the dialog loop returns nil. -/
theorem dialog_eof_tail (cfg : Config) (gs : Bool) (w : World) (us : List Byte)
    (tail : List ReadResult) (hus : ∀ b ∈ us, isTerm b = true)
    (ht : tail = [] ∨ ∃ rest, tail = ReadResult.fail PortError.eof :: rest)
    (hw : w.reads = us.map ReadResult.byte ++ tail) :
    dialog cfg gs w = some ⟨none, gs, { w with reads := tail.tail }.emit
      (Event.logln "Readline EOF, assuming config finished or device disconnected.")⟩ := by
  have hr : readLine w.reads = ([], some PortError.eof, tail.tail) := by
    rw [hw]
    unfold readLine
    rw [readLineLoop_terms us hus]
    rcases ht with rfl | ⟨rest, rfl⟩ <;> rfl
  rw [dialog_fail cfg gs w [] _ _ hr, if_pos rfl]

/-- In the Answering state, a run of prompt lines is answered line by line. -/
theorem dialog_prompts (cfg : Config) (t : Byte) (sep : List Byte)
    (ht : isTerm t = true) (hsep : ∀ b ∈ sep, isTerm b = true)
    (ps : List (Prompt × List Byte)) :
    ∀ (w : World) (ts : List Byte) (tail : List ReadResult),
      (∀ b ∈ ts, isTerm b = true) → (∀ q ∈ ps, ∀ b ∈ q.2, isTerm b = false) →
      w.reads = ts.map ReadResult.byte ++ (wire (t :: sep) (ps.map promptLine) ++ tail) →
      ∃ (v : World) (us : List Byte), (∀ b ∈ us, isTerm b = true)
        ∧ (ps ≠ [] → us = sep)
        ∧ (ps = [] → us = ts)
        ∧ dialog cfg true w = dialog cfg true v
        ∧ v.reads = us.map ReadResult.byte ++ tail
        ∧ writesOf v.trace = writesOf w.trace ++ ps.map (fun q => answerOf cfg q.1) := by
  induction ps with
  | nil =>
    intro w ts tail hts _ hw
    exact ⟨w, ts, hts, fun h => absurd rfl h, fun _ => rfl, rfl, by simpa [wire] using hw,
      by simp⟩
  | cons q ps ih =>
    intro w ts tail hts hps hw
    have hq := hps q (List.mem_cons_self _ _)
    have hr : readLine w.reads = (promptLine q, none,
        sep.map ReadResult.byte ++ (wire (t :: sep) (ps.map promptLine) ++ tail)) := by
      rw [hw, List.map_cons]
      exact readLine_wire t sep ts (promptLine q) _ tail ht hts (promptLine_free q hq)
        (promptLine_ne_nil q)
    obtain ⟨v, us, h1, h2, h3, h4, h5, h6⟩ := ih
      ((({ w with reads := sep.map ReadResult.byte ++
            (wire (t :: sep) (ps.map promptLine) ++ tail) }.emit
          (Event.println (promptLine q))).emit (Event.sleep 100)).write (answerOf cfg q.1)).2
      sep tail hsep (fun p hp => hps p (List.mem_cons_of_mem _ hp)) (by simp)
    refine ⟨v, us, h1, ?_, fun h => absurd h (List.cons_ne_nil _ _), ?_, h5, ?_⟩
    · intro _
      by_cases hnil : ps = []
      · exact h3 hnil
      · exact h2 hnil
    · rw [dialog_answer cfg w _ _ hr,
        promptSwitch_prompt cfg q.1 (promptLine q) _ (hasPrefix_promptLine q)]
      exact h4
    · rw [h6]
      simp [writesOf]

/-- The dialog loop does not examine the outcome of a write: from either state, whatever
outcomes the writes have, it returns the same error, the same state, the same pending
reads and the same bytes written. -/
theorem dialog_write_outcomes (cfg : Config) (st : Bool) (v : World)
    (wr : List (Option PortError)) :
    ∃ d d2, dialog cfg st v = some d ∧ dialog cfg st { v with writeRes := wr } = some d2
      ∧ d.err = d2.err ∧ d.gotStart = d2.gotStart ∧ d.world.reads = d2.world.reads
      ∧ writesOf d.world.trace = writesOf d2.world.trace := by
  have hs : SameTraffic v { v with writeRes := wr } := ⟨rfl, rfl⟩
  obtain ⟨d, hd⟩ := dialogLoop_returns cfg (v.reads.length + 1) st v (Nat.lt_succ_self _)
  obtain ⟨c, hc⟩ := dialogLoop_returns cfg (v.reads.length + 1) st
    { v with writeRes := wr } (Nat.lt_succ_self _)
  have hsim := dialogLoop_sim cfg (v.reads.length + 1) st _ _ hs
  rw [hd, hc] at hsim
  exact ⟨d, c, hd, hc, hsim.1, hsim.2.1, hsim.2.2.1, hsim.2.2.2⟩

/-- The function `configESP32` does not examine the outcome of a write: whatever outcomes
the writes have, it returns the same error, leaves the same pending reads and writes
the same bytes. -/
theorem configESP32_write_outcomes (cfg : Config) (v : World)
    (wr : List (Option PortError)) :
    ∃ r r2, configESP32 cfg v = some r ∧ configESP32 cfg { v with writeRes := wr } = some r2
      ∧ r.err = r2.err ∧ r.world.reads = r2.world.reads
      ∧ writesOf r.world.trace = writesOf r2.world.trace := by
  by_cases h1 : cfg.ssid = []
  · exact ⟨⟨some (Error.msg "no ssid"), v⟩,
      ⟨some (Error.msg "no ssid"), { v with writeRes := wr }⟩,
      by simp [configESP32, h1], by simp [configESP32, h1], rfl, rfl, rfl⟩
  by_cases h2 : cfg.mqttIP = []
  · exact ⟨⟨some (Error.msg "no mqttIP"), v⟩,
      ⟨some (Error.msg "no mqttIP"), { v with writeRes := wr }⟩,
      by simp [configESP32, h1, h2], by simp [configESP32, h1, h2], rfl, rfl, rfl⟩
  rcases Option.eq_none_or_eq_some v.openRes with h3 | ⟨e2, h3⟩
  swap
  · exact ⟨⟨some (Error.port e2), v.emit (Event.portOpen (some e2))⟩,
      ⟨some (Error.port e2), { v with writeRes := wr }.emit (Event.portOpen (some e2))⟩,
      by simp [configESP32, h1, h2, h3], by simp [configESP32, h1, h2, h3], rfl, rfl, rfl⟩
  · obtain ⟨d, c, hd, hc, he, _, hr, hw⟩ :=
      dialog_write_outcomes cfg false (resetPhase v) wr
    have hc2 : dialog cfg false (resetPhase { v with writeRes := wr }) = some c := hc
    refine ⟨⟨d.err, d.world.emit Event.portClose⟩, ⟨c.err, c.world.emit Event.portClose⟩,
      ?_, ?_, he, ?_, ?_⟩
    · rw [configESP32_eq_dialog cfg v h1 h2 h3, hd]; rfl
    · rw [configESP32_eq_dialog cfg { v with writeRes := wr } h1 h2 h3, hc2]; rfl
    · simpa using hr
    · simpa [writesOf] using hw

/-! ## The claims -/

/-- C1 (as stated, refuted). On the stream `ab\ncd` followed by end-of-stream the
successive `readLine` calls return only `ab`: the run `cd`, a non-empty maximal run of
non-terminator bytes, is discarded when the read after it reports end-of-stream. -/
theorem readLines_drops_unterminated_run :
    readLines 7 (([0x61, 0x62, 0x0a, 0x63, 0x64] : List Byte).map ReadResult.byte
        ++ [ReadResult.fail PortError.eof]) = [[0x61, 0x62]]
      ∧ maximalRuns [0x61, 0x62, 0x0a, 0x63, 0x64] = [[0x61, 0x62], [0x63, 0x64]]
      ∧ readLines 7 (([0x61, 0x62, 0x0a, 0x63, 0x64] : List Byte).map ReadResult.byte
        ++ [ReadResult.fail PortError.eof]) ≠ maximalRuns [0x61, 0x62, 0x0a, 0x63, 0x64] := by
  refine ⟨by decide, by decide, by decide⟩

/-- C1 (amended). For every finite byte stream delivered one byte per read and followed by
end-of-stream (or any read failure), the lines returned by successive `readLine` calls
are exactly the non-empty maximal runs of non-terminator bytes that are followed by a
terminator, in stream order; no returned line is empty and none contains CR or LF; when
the stream ends with a terminator these are all the non-empty maximal runs. -/
theorem readLines_eq_terminatedRuns (fuel : Nat) (bs : List Byte) (tail : List ReadResult)
    (ht : tail = [] ∨ ∃ e rest, tail = ReadResult.fail e :: rest) (h : bs.length < fuel) :
    readLines fuel (bs.map ReadResult.byte ++ tail) = terminatedRuns bs
      ∧ (∀ l ∈ readLines fuel (bs.map ReadResult.byte ++ tail),
          l ≠ [] ∧ ∀ b ∈ l, isTerm b = false)
      ∧ (∀ (h0 : bs ≠ []), isTerm (bs.getLast h0) = true →
          readLines fuel (bs.map ReadResult.byte ++ tail) = maximalRuns bs) := by
  have e := readLines_map_byte fuel bs tail ht h
  refine ⟨e, ?_, ?_⟩
  · intro l hl
    rw [e] at hl
    simp only [terminatedRuns, List.mem_filter, decide_eq_true_eq] at hl
    exact ⟨hl.2, splitOnP_isTerm_free bs l (List.mem_of_mem_dropLast hl.1)⟩
  · intro h0 ht
    rw [e]
    have hb := List.dropLast_append_getLast h0
    rw [← hb]
    exact terminatedRuns_eq_maximalRuns _ _ ht

theorem readLines_eq_terminatedRuns_witness :
    readLines 6 (([0x61, 0x0d, 0x0a, 0x62, 0x0a] : List Byte).map ReadResult.byte
        ++ [ReadResult.fail PortError.eof])
      = terminatedRuns [0x61, 0x0d, 0x0a, 0x62, 0x0a] :=
  (readLines_eq_terminatedRuns 6 [0x61, 0x0d, 0x0a, 0x62, 0x0a]
    [ReadResult.fail PortError.eof] (Or.inr ⟨_, _, rfl⟩) (by decide)).1

/-- C2. The answer table: in the Answering state, a line that starts with one of the
seven configuration prompts makes the read cycle perform exactly one write, whose bytes
are the table's answer for that prompt, and the loop goes on in the Answering state; a
session whose device sends the banner and then one such prompt line writes exactly that
answer; with `interval = 120` the answer to `enter monitor interval` is exactly `120\n`. -/
theorem answer_table (cfg : Config) (p : Prompt) (fuel : Nat) (w : World)
    (line : List Byte) (rest : List ReadResult)
    (hr : readLine w.reads = (line, none, rest)) (hp : HasPrefix line p.text = true) :
    dialogLoop cfg (fuel + 1) true w =
        dialogLoop cfg fuel true
          ((({ w with reads := rest }.emit (Event.println line)).emit
            (Event.sleep 100)).write (answerOf cfg p)).2
      ∧ writesOf ((({ w with reads := rest }.emit (Event.println line)).emit
            (Event.sleep 100)).write (answerOf cfg p)).2.trace
          = writesOf w.trace ++ [answerOf cfg p]
      ∧ answerOf cfg Prompt.ssid = cfg.ssid ++ str "\n"
      ∧ answerOf cfg Prompt.password = cfg.password ++ str "\n"
      ∧ answerOf cfg Prompt.mqttIP = cfg.mqttIP ++ str "\n"
      ∧ answerOf cfg Prompt.mqttPort = fmtD cfg.mqttPort ++ str "\n"
      ∧ answerOf cfg Prompt.interval = fmtD cfg.interval ++ str "\n"
      ∧ answerOf cfg Prompt.sensorType = cfg.sensorType ++ str "\n"
      ∧ answerOf cfg Prompt.rainSensor = (if cfg.hasRainSensor then str "yes\n" else str "no\n")
      ∧ (cfg.interval = 120 → answerOf cfg Prompt.interval = str "120\n")
      ∧ (∀ (v : World) (t : Byte) (sep sfx : List Byte) (tail : List ReadResult),
          cfg.ssid ≠ [] → cfg.mqttIP ≠ [] → v.openRes = none → isTerm t = true →
          (∀ b ∈ sep, isTerm b = true) → (∀ b ∈ sfx, isTerm b = false) →
          (tail = [] ∨ ∃ rest, tail = ReadResult.fail PortError.eof :: rest) →
          v.reads = wire (t :: sep) [str "setup start", p.text ++ sfx] ++ tail →
          ∃ r, configESP32 cfg v = some r ∧ r.err = none
            ∧ writesOf r.world.trace = writesOf v.trace ++ [answerOf cfg p]) := by
  refine ⟨?_, ?_, rfl, rfl, rfl, rfl, rfl, rfl, rfl, ?_, ?_⟩
  · rw [dialogLoop_answer cfg fuel w line rest hr, promptSwitch_prompt cfg p line _ hp]
  · simp [writesOf]
  · intro h
    simp only [answerOf, h]
    decide
  · intro v t sep sfx tail h1 h2 h3 ht hsep hsfx htail hv
    rw [configESP32_eq_dialog cfg v h1 h2 h3,
      dialog_banner cfg t sep [p.text ++ sfx] tail (resetPhase v) ht
        (by simpa [resetPhase] using hv)]
    obtain ⟨u, us, hu1, _, _, hu4, hu5, hu6⟩ := dialog_prompts cfg t sep ht hsep [(p, sfx)]
      ({ resetPhase v with reads := sep.map ReadResult.byte ++
          (wire (t :: sep) [p.text ++ sfx] ++ tail) }.emit
        (Event.println (str "setup start")))
      sep tail hsep (by simpa using hsfx) (by simp [promptLine])
    rw [hu4, dialog_eof_tail cfg true u us tail hu1 htail hu5]
    exact ⟨_, rfl, rfl, by simp [writesOf, hu6, resetPhase]⟩

theorem answer_table_witness :
    dialogLoop sampleConfig 1 true
        (World.start ((str "enter monitor interval").map ReadResult.byte ++
          [ReadResult.byte 0x0a]) []) =
      dialogLoop sampleConfig 0 true
        ((({ (World.start ((str "enter monitor interval").map ReadResult.byte ++
            [ReadResult.byte 0x0a]) []) with reads := [] }.emit
              (Event.println (str "enter monitor interval"))).emit
            (Event.sleep 100)).write (answerOf sampleConfig Prompt.interval)).2 :=
  (answer_table sampleConfig Prompt.interval 0
    (World.start ((str "enter monitor interval").map ReadResult.byte ++
      [ReadResult.byte 0x0a]) [])
    (str "enter monitor interval") [] (by decide) (by decide)).1

set_option maxRecDepth 100000 in
/-- C3. The full dialog: with non-empty ssid and broker address and a port that opens,
a transcript made of the line `setup start`, then the seven configuration prompts in any
order, then a line starting with `Config ssid=`, every line followed by the same
non-empty separator of CR and LF bytes, makes `configESP32` return nil after writing
exactly seven answers, the i-th being the table's answer to the i-th prompt, and nothing
else; what follows the first terminator after the `Config ssid=` line is not read. -/
theorem full_dialog (cfg : Config) (w : World) (t : Byte) (sep : List Byte)
    (ps : List (Prompt × List Byte)) (tail : List Byte) (rest : List ReadResult)
    (hssid : cfg.ssid ≠ []) (hip : cfg.mqttIP ≠ []) (hopen : w.openRes = none)
    (ht : isTerm t = true) (hsep : ∀ b ∈ sep, isTerm b = true)
    (hperm : (ps.map Prod.fst).Perm Prompt.all)
    (hps : ∀ q ∈ ps, ∀ b ∈ q.2, isTerm b = false) (htail : ∀ b ∈ tail, isTerm b = false)
    (hreads : w.reads = wire (t :: sep)
      (str "setup start" :: (ps.map promptLine ++ [str "Config ssid=" ++ tail])) ++ rest) :
    ∃ r, configESP32 cfg w = some r ∧ r.err = none
      ∧ writesOf r.world.trace = writesOf w.trace ++ ps.map (fun q => answerOf cfg q.1)
      ∧ (ps.map (fun q => answerOf cfg q.1)).length = 7
      ∧ r.world.reads = sep.map ReadResult.byte ++ rest := by
  rw [configESP32_eq_dialog cfg w hssid hip hopen]
  have hb : readLine (resetPhase w).reads = (str "setup start", none,
      sep.map ReadResult.byte ++ (wire (t :: sep)
        (ps.map promptLine ++ [str "Config ssid=" ++ tail]) ++ rest)) := by
    have := readLine_wire t sep [] (str "setup start")
      (ps.map promptLine ++ [str "Config ssid=" ++ tail]) rest ht (by simp)
      (by decide) (by decide)
    simpa [resetPhase, hreads] using this
  have hb2 : HasPrefix (str "setup start") (str "setup start") = true := by decide
  rw [dialog_sync cfg _ _ _ hb, hb2]
  obtain ⟨v, us, h1, _, _, h4, h5, h6⟩ := dialog_prompts cfg t sep ht hsep ps
    ({ resetPhase w with reads := sep.map ReadResult.byte ++ (wire (t :: sep)
        (ps.map promptLine ++ [str "Config ssid=" ++ tail]) ++ rest) }.emit
      (Event.println (str "setup start")))
    sep (wire (t :: sep) [str "Config ssid=" ++ tail] ++ rest) hsep hps
    (by simp [wire_append])
  have hfree : ∀ b ∈ str "Config ssid=" ++ tail, isTerm b = false := by
    intro b hb
    rw [List.mem_append] at hb
    rcases hb with hb | hb
    · revert b
      decide
    · exact htail b hb
  have hr : readLine v.reads = (str "Config ssid=" ++ tail, none,
      sep.map ReadResult.byte ++ rest) := by
    rw [h5]
    have := readLine_wire t sep us (str "Config ssid=" ++ tail) [] rest ht h1 hfree
      (by simp [str])
    simpa [wire] using this
  have hpre : HasPrefix (str "Config ssid=" ++ tail) (str "Config ssid=") = true := by
    simp [HasPrefix]
  rw [h4, dialog_answer cfg v _ _ hr, promptSwitch_success cfg _ _ hpre]
  refine ⟨_, rfl, rfl, ?_, ?_, rfl⟩
  · simp [writesOf, h6, resetPhase]
  · have := hperm.length_eq
    simpa [Prompt.all] using this

set_option maxRecDepth 100000 in
theorem full_dialog_witness :
    ∃ r, configESP32 sampleConfig
        (World.start (wire [0x0d, 0x0a]
          (str "setup start" :: ((Prompt.all.reverse.map (fun p => (p, str " ?"))).map promptLine
            ++ [str "Config ssid=" ++ str "net"])) ++ [ReadResult.zero]) []) = some r
      ∧ r.err = none
      ∧ writesOf r.world.trace = writesOf (World.start (wire [0x0d, 0x0a]
          (str "setup start" :: ((Prompt.all.reverse.map (fun p => (p, str " ?"))).map promptLine
            ++ [str "Config ssid=" ++ str "net"])) ++ [ReadResult.zero]) []).trace
          ++ (Prompt.all.reverse.map (fun p => (p, str " ?"))).map
            (fun q => answerOf sampleConfig q.1)
      ∧ ((Prompt.all.reverse.map (fun p => (p, str " ?"))).map
            (fun q => answerOf sampleConfig q.1)).length = 7
      ∧ r.world.reads = ([0x0a] : List Byte).map ReadResult.byte ++ [ReadResult.zero] :=
  full_dialog sampleConfig _ 0x0d [0x0a] (Prompt.all.reverse.map (fun p => (p, str " ?")))
    (str "net") [ReadResult.zero] (by decide) (by decide) rfl (by decide) (by decide)
    (by decide) (by decide) (by decide) rfl

/-- C4. No banner, no bytes: when none of the lines `readLine` returns from the device
transcript starts with `setup start`, whatever else the transcript holds, the dialog
loop returns with `gotStart` still false and `configESP32` writes no byte to the port. -/
theorem no_banner_no_bytes (cfg : Config) (w : World)
    (h : ∀ l ∈ readLines (w.reads.length + 1) w.reads,
      HasPrefix l (str "setup start") = false) :
    (∃ r, configESP32 cfg w = some r ∧ writesOf r.world.trace = writesOf w.trace
        ∧ r.world.writeRes = w.writeRes)
      ∧ (∃ d, dialog cfg false (resetPhase w) = some d ∧ d.gotStart = false
        ∧ writesOf d.world.trace = writesOf w.trace ∧ d.world.writeRes = w.writeRes) := by
  have hd : ∃ d, dialog cfg false (resetPhase w) = some d ∧ d.gotStart = false
      ∧ writesOf d.world.trace = writesOf w.trace ∧ d.world.writeRes = w.writeRes := by
    obtain ⟨d, hd, h2, h3, h4⟩ := dialogLoop_no_banner cfg ((resetPhase w).reads.length + 1)
      (resetPhase w) (Nat.lt_succ_self _) (by simpa [resetPhase] using h)
    refine ⟨d, hd, h2, ?_, ?_⟩
    · rw [h3]; simp [resetPhase, writesOf]
    · rw [h4]; simp [resetPhase]
  refine ⟨?_, hd⟩
  by_cases h1 : cfg.ssid = []
  · exact ⟨⟨some (Error.msg "no ssid"), w⟩, by simp [configESP32, h1], rfl, rfl⟩
  by_cases h2 : cfg.mqttIP = []
  · exact ⟨⟨some (Error.msg "no mqttIP"), w⟩, by simp [configESP32, h1, h2], rfl, rfl⟩
  rcases Option.eq_none_or_eq_some w.openRes with h3 | ⟨e2, h3⟩
  · obtain ⟨d, hd1, _, hd3, hd4⟩ := hd
    refine ⟨⟨d.err, d.world.emit Event.portClose⟩, ?_, ?_, ?_⟩
    · rw [configESP32_eq_dialog cfg w h1 h2 h3, hd1]; rfl
    · simp [writesOf, hd3]
    · simpa using hd4
  · exact ⟨⟨some (Error.port e2), w.emit (Event.portOpen (some e2))⟩,
      by simp [configESP32, h1, h2, h3], by simp [writesOf], rfl⟩

theorem no_banner_no_bytes_witness :
    ∃ r, configESP32 sampleConfig
        (World.start (wire [0x0a] [str "enter ssid:", str "Config ssid=net"]) []) = some r
      ∧ writesOf r.world.trace = writesOf
        (World.start (wire [0x0a] [str "enter ssid:", str "Config ssid=net"]) []).trace
      ∧ r.world.writeRes =
        (World.start (wire [0x0a] [str "enter ssid:", str "Config ssid=net"]) []).writeRes :=
  (no_banner_no_bytes sampleConfig
    (World.start (wire [0x0a] [str "enter ssid:", str "Config ssid=net"]) [])
    (by decide)).1

/-- C5. End-of-stream is benign: when `readLine` reports `io.EOF` to the dialog loop, in
either state, the loop returns nil at once: the state is kept, nothing more is read and
nothing is written, only the log line is added.  A transcript that is the single line
`setup start` followed by end-of-stream returns nil with no byte written; and a session
whose device stream holds no read failure other than end-of-stream returns nil. -/
theorem eof_is_benign (cfg : Config) (fuel : Nat) (gs : Bool) (w : World)
    (line : List Byte) (rest : List ReadResult)
    (h : readLine w.reads = (line, some PortError.eof, rest)) :
    dialogLoop cfg (fuel + 1) gs w =
        some ⟨none, gs, { w with reads := rest }.emit
          (Event.logln "Readline EOF, assuming config finished or device disconnected.")⟩
      ∧ (∀ (c : Config) (v : World) (t : Byte) (sep : List Byte) (tail : List ReadResult),
          c.ssid ≠ [] → c.mqttIP ≠ [] → v.openRes = none → isTerm t = true →
          (∀ b ∈ sep, isTerm b = true) →
          (tail = [] ∨ ∃ rest, tail = ReadResult.fail PortError.eof :: rest) →
          v.reads = wire (t :: sep) [str "setup start"] ++ tail →
          ∃ r, configESP32 c v = some r ∧ r.err = none ∧ r.world.reads = tail.tail
            ∧ writesOf r.world.trace = writesOf v.trace ∧ r.world.writeRes = v.writeRes)
      ∧ (∀ (c : Config) (v : World), c.ssid ≠ [] → c.mqttIP ≠ [] → v.openRes = none →
          (∀ e, ReadResult.fail e ∈ v.reads → e = PortError.eof) →
          ∃ r, configESP32 c v = some r ∧ r.err = none) := by
  refine ⟨?_, ?_, ?_⟩
  · rw [dialogLoop_fail cfg fuel gs w line _ rest h, if_pos rfl]
  · intro c v t sep tail h1 h2 h3 ht hsep htail hv
    rw [configESP32_eq_dialog c v h1 h2 h3,
      dialog_banner c t sep [] tail (resetPhase v) ht (by simpa [resetPhase] using hv),
      dialog_eof_tail c true _ sep tail hsep htail (by simp [wire])]
    refine ⟨_, rfl, rfl, rfl, ?_, ?_⟩
    · simp [resetPhase, writesOf]
    · simp [resetPhase]
  · intro c v h1 h2 h3 h4
    rw [configESP32_eq_dialog c v h1 h2 h3]
    obtain ⟨d, hd, he⟩ := dialogLoop_nil_of_eof_only c ((resetPhase v).reads.length + 1) false
      (resetPhase v) (Nat.lt_succ_self _) (by simpa [resetPhase] using h4)
    unfold dialog
    rw [hd]
    exact ⟨_, rfl, he⟩

theorem eof_is_benign_witness :
    dialogLoop sampleConfig 1 true (World.start [] []) =
      some ⟨none, true, { World.start [] [] with reads := [] }.emit
        (Event.logln "Readline EOF, assuming config finished or device disconnected.")⟩ :=
  (eof_is_benign sampleConfig 0 true (World.start [] []) [] [] rfl).1

/-- C6 (as stated, refuted). The write that answers `enter ssid:` fails, yet the session
goes on: it reads the next prompt, writes the password, reads the success marker and
returns nil; the failure of the write is not reported. -/
theorem write_failure_not_reported :
    (configESP32 sampleConfig failedWriteWorld).map
        (fun r => (r.err, writesOf r.world.trace, r.world.reads,
          decide (Event.write (str "net\n") (some (PortError.other 5)) ∈ r.world.trace)))
      = some (none, [str "net\n", str "pw\n"], [], true) := by
  decide

/-- C6 (amended). A read failure other than end-of-stream is fatal: when `readLine`
reports it to the dialog loop, in either state, the loop returns that error at once,
reading and writing nothing more; so does `configESP32` when this happens on its first
read.  The outcome of a write is not examined: for every world and whatever outcomes
its writes have, `configESP32` returns the same error value, leaves the same pending
reads and writes the same bytes, and so does the dialog loop from either state. -/
theorem read_failure_is_fatal (cfg : Config) (fuel : Nat) (gs : Bool) (w : World)
    (line : List Byte) (e : PortError) (rest : List ReadResult)
    (h : readLine w.reads = (line, some e, rest)) (he : e ≠ PortError.eof) :
    dialogLoop cfg (fuel + 1) gs w = some ⟨some (Error.port e), gs, { w with reads := rest }⟩
      ∧ (cfg.ssid ≠ [] → cfg.mqttIP ≠ [] → w.openRes = none →
          configESP32 cfg w = some ⟨some (Error.port e),
            { resetPhase w with reads := rest }.emit Event.portClose⟩)
      ∧ (∀ (v : World) (wr : List (Option PortError)),
          ∃ r r2, configESP32 cfg v = some r ∧ configESP32 cfg { v with writeRes := wr } = some r2
            ∧ r.err = r2.err ∧ r.world.reads = r2.world.reads
            ∧ writesOf r.world.trace = writesOf r2.world.trace)
      ∧ (∀ (st : Bool) (v : World) (wr : List (Option PortError)),
          ∃ d d2, dialog cfg st v = some d ∧ dialog cfg st { v with writeRes := wr } = some d2
            ∧ d.err = d2.err ∧ d.gotStart = d2.gotStart ∧ d.world.reads = d2.world.reads
            ∧ writesOf d.world.trace = writesOf d2.world.trace) := by
  refine ⟨?_, ?_, configESP32_write_outcomes cfg, dialog_write_outcomes cfg⟩
  · rw [dialogLoop_fail cfg fuel gs w line e rest h, if_neg he]
  · intro h1 h2 h3
    rw [configESP32_eq_dialog cfg w h1 h2 h3]
    have hb : readLine (resetPhase w).reads = (line, some e, rest) := by
      simpa [resetPhase] using h
    rw [dialog_fail cfg false _ line e rest hb, if_neg he]
    rfl

theorem read_failure_is_fatal_witness :
    dialogLoop sampleConfig 1 true (World.start [ReadResult.fail (PortError.other 7)] []) =
        some ⟨some (Error.port (PortError.other 7)), true,
          { World.start [ReadResult.fail (PortError.other 7)] [] with reads := [] }⟩
      ∧ ∃ r r2, configESP32 sampleConfig failedWriteWorld = some r
          ∧ configESP32 sampleConfig { failedWriteWorld with writeRes := [] } = some r2
          ∧ r.err = r2.err ∧ r.world.reads = r2.world.reads
          ∧ writesOf r.world.trace = writesOf r2.world.trace :=
  ⟨(read_failure_is_fatal sampleConfig 0 true
      (World.start [ReadResult.fail (PortError.other 7)] []) [] (PortError.other 7) [] rfl
      (by decide)).1,
    (read_failure_is_fatal sampleConfig 0 true
      (World.start [ReadResult.fail (PortError.other 7)] []) [] (PortError.other 7) [] rfl
      (by decide)).2.2.1 failedWriteWorld []⟩

/-- C7. Precondition check: when the ssid is empty, or the broker address is empty,
`configESP32` returns a non-nil error and leaves the world untouched: the port is not
opened and there is no reset, read or write.  An empty ssid is reported as `no ssid`
whatever the other fields are. -/
theorem configESP32_missing_input (cfg : Config) (w : World)
    (h : cfg.ssid = [] ∨ cfg.mqttIP = []) :
    (∃ e, configESP32 cfg w = some ⟨some e, w⟩)
      ∧ (cfg.ssid = [] → configESP32 cfg w = some ⟨some (Error.msg "no ssid"), w⟩)
      ∧ (cfg.ssid ≠ [] → configESP32 cfg w = some ⟨some (Error.msg "no mqttIP"), w⟩) := by
  unfold configESP32
  by_cases h1 : cfg.ssid = []
  · simp [h1]
  · have h2 : cfg.mqttIP = [] := h.resolve_left h1
    simp [h1, h2]

theorem configESP32_missing_input_witness :
    ∃ e, configESP32 { sampleConfig with ssid := [] }
        (World.start [ReadResult.byte 0x41] []) =
      some ⟨some e, World.start [ReadResult.byte 0x41] []⟩ :=
  (configESP32_missing_input { sampleConfig with ssid := [] }
    (World.start [ReadResult.byte 0x41] []) (Or.inl rfl)).1

/-- C8. Unrecognized lines are inert: in the Answering state a line, empty or not, that
starts with none of the twelve known texts makes the read cycle write nothing and keep
the state; the session then returns the same error, leaves the same pending reads and
writes the same bytes as from the transcript with that line removed. -/
theorem unrecognized_line_inert (cfg : Config) (fuel : Nat) (w : World)
    (line : List Byte) (rest : List ReadResult)
    (hr : readLine w.reads = (line, none, rest))
    (hun : ∀ p ∈ promptPrefixes, HasPrefix line p = false) :
    dialogLoop cfg (fuel + 1) true w =
        dialogLoop cfg fuel true
          (({ w with reads := rest }.emit (Event.println line)).emit (Event.sleep 100))
      ∧ writesOf (({ w with reads := rest }.emit (Event.println line)).emit
          (Event.sleep 100)).trace = writesOf w.trace
      ∧ (({ w with reads := rest }.emit (Event.println line)).emit
          (Event.sleep 100)).writeRes = w.writeRes
      ∧ (∃ d c, dialog cfg true w = some d ∧ dialog cfg true { w with reads := rest } = some c
          ∧ d.err = c.err ∧ d.gotStart = c.gotStart ∧ d.world.reads = c.world.reads
          ∧ writesOf d.world.trace = writesOf c.world.trace) := by
  refine ⟨?_, ?_, rfl, ?_⟩
  · rw [dialogLoop_answer cfg fuel w line rest hr, promptSwitch_unmatched cfg line _ hun]
  · simp [writesOf]
  · have h1 : dialog cfg true w = dialog cfg true
        (({ w with reads := rest }.emit (Event.println line)).emit (Event.sleep 100)) := by
      rw [dialog_answer cfg w line rest hr, promptSwitch_unmatched cfg line _ hun]
    have hs : SameTraffic (({ w with reads := rest }.emit (Event.println line)).emit (Event.sleep 100))
        { w with reads := rest } := by
      simp [SameTraffic, writesOf]
    have hsim := dialogLoop_sim cfg (rest.length + 1) true _ _ hs
    obtain ⟨d, hd⟩ := dialogLoop_returns cfg (rest.length + 1) true
      (({ w with reads := rest }.emit (Event.println line)).emit (Event.sleep 100))
      (by simp)
    obtain ⟨c, hc⟩ := dialogLoop_returns cfg (rest.length + 1) true
      { w with reads := rest } (by simp)
    rw [hd, hc] at hsim
    exact ⟨d, c, h1.trans hd, hc, hsim.1, hsim.2.1, hsim.2.2.1, hsim.2.2.2⟩

theorem unrecognized_line_inert_witness :
    dialogLoop sampleConfig 3 true
        (World.start [ReadResult.zero, ReadResult.byte 0x41, ReadResult.byte 0x0a] []) =
      dialogLoop sampleConfig 2 true
        (({ World.start [ReadResult.zero, ReadResult.byte 0x41, ReadResult.byte 0x0a] [] with
            reads := [ReadResult.byte 0x41, ReadResult.byte 0x0a] }.emit
          (Event.println [])).emit (Event.sleep 100)) :=
  (unrecognized_line_inert sampleConfig 2
    (World.start [ReadResult.zero, ReadResult.byte 0x41, ReadResult.byte 0x0a] [])
    [] [ReadResult.byte 0x41, ReadResult.byte 0x0a] rfl (by decide)).1

/-- C9. A zero-length read ends the line: after any terminators read while the buffer is
empty and then `k ≥ 0` non-terminator bytes, a read returning `n = 0` makes `readLine`
return exactly those bytes (the empty line when `k = 0`) with a nil error, and nothing
after the zero-length read is consumed. -/
theorem readLine_zero_read (ts bs : List Byte) (rest : List ReadResult)
    (hts : ∀ b ∈ ts, isTerm b = true) (hbs : ∀ b ∈ bs, isTerm b = false) :
    readLine (ts.map ReadResult.byte ++ (bs.map ReadResult.byte ++ ReadResult.zero :: rest))
      = (bs, none, rest) := by
  unfold readLine
  rw [readLineLoop_terms ts hts, readLineLoop_run bs hbs]
  simp [readLineLoop]

theorem readLine_zero_read_witness :
    readLine (([0x0d, 0x0a] : List Byte).map ReadResult.byte ++
        (([0x6f, 0x6b] : List Byte).map ReadResult.byte ++
          ReadResult.zero :: [ReadResult.byte 0x41]))
      = ([0x6f, 0x6b], none, [ReadResult.byte 0x41]) :=
  readLine_zero_read [0x0d, 0x0a] [0x6f, 0x6b] [ReadResult.byte 0x41]
    (by simp [isTerm]) (by simp [isTerm])

/-- C10. First-match-wins is unambiguous: none of the twelve texts tested by the `switch`
is a beginning of another, so a line starts with at most one of them; the `switch` does
what its table of cases does under first-match-wins, and the same under every
permutation of the cases; and a line that starts with `setup start` starts with none of
the twelve. -/
theorem first_match_unambiguous (cfg : Config) :
    promptPrefixes.length = 12
      ∧ (∀ p ∈ promptPrefixes, ∀ q ∈ promptPrefixes, p <+: q → p = q)
      ∧ (∀ (line p q : List Byte), p ∈ promptPrefixes → q ∈ promptPrefixes →
          HasPrefix line p = true → HasPrefix line q = true → p = q)
      ∧ (promptTable cfg).map Prod.fst = promptPrefixes
      ∧ (∀ (line : List Byte) (w : World),
          promptSwitch cfg line w = tableSwitch (promptTable cfg) line w)
      ∧ (∀ (table : List (List Byte × Action)), table.Perm (promptTable cfg) →
          ∀ (line : List Byte) (w : World),
            tableSwitch table line w = promptSwitch cfg line w)
      ∧ (∀ (line : List Byte), HasPrefix line (str "setup start") = true →
          ∀ p ∈ promptPrefixes, HasPrefix line p = false) := by
  refine ⟨rfl, promptPrefixes_disjoint, ?_, rfl, promptSwitch_eq_tableSwitch cfg, ?_, ?_⟩
  · intro line p q hp hq h1 h2
    exact hasPrefix_unique line p q hp hq h1 h2
  · intro table hperm line w
    rw [promptSwitch_eq_tableSwitch]
    unfold tableSwitch firstMatch
    rw [find_perm_of_unique (fun c => HasPrefix line c.1) (promptTable cfg) table hperm]
    intro a ha b hb hfa hfb
    have hka : a.1 ∈ promptPrefixes := by
      rw [← promptTable_keys cfg]
      exact List.mem_map_of_mem _ ha
    have hkb : b.1 ∈ promptPrefixes := by
      rw [← promptTable_keys cfg]
      exact List.mem_map_of_mem _ hb
    have hk : a.1 = b.1 := hasPrefix_unique line a.1 b.1 hka hkb hfa hfb
    have hnd : ((promptTable cfg).map Prod.fst).Nodup := by
      rw [promptTable_keys]
      exact promptPrefixes_nodup
    exact List.inj_on_of_nodup_map hnd ha hb hk
  · intro line hline p hp
    cases h2 : HasPrefix line p with
    | false => rfl
    | true =>
      simp only [HasPrefix, List.isPrefixOf_iff_prefix] at hline h2
      have hd := banner_disjoint p hp
      rcases Nat.le_total p.length (str "setup start").length with h | h
      · exact absurd (List.prefix_of_prefix_length_le h2 hline h) hd.1
      · exact absurd (List.prefix_of_prefix_length_le hline h2 h) hd.2

theorem first_match_unambiguous_witness :
    tableSwitch (promptTable sampleConfig).reverse (str "enter mqtt port: ")
        (World.start [] []) =
      promptSwitch sampleConfig (str "enter mqtt port: ") (World.start [] []) :=
  (first_match_unambiguous sampleConfig).2.2.2.2.2.1 (promptTable sampleConfig).reverse
    (List.reverse_perm _) (str "enter mqtt port: ") (World.start [] [])

end TwESP32Flora
